import Mathlib

/-!
Verification of the draftea payment-system core: a shallow embedding of the
wallet aggregate, the payment aggregate, the payment-operation use cases, the
event envelope with topic pattern matching, and the batching event publisher,
together with theorems settling the specification claims.

Go machine integers (int64) are modelled as Lean Int with explicit
twos-complement wrap-around; strings that only need equality tests are Lean String;
strings that the topic matcher inspects character by character are List Char.
Nondeterministic inputs of the Go code (generated UUIDs, clock readings) are
passed in as explicit parameters.
-/

namespace Draftea

/-! ### Go int64 arithmetic -/

def int64Min : Int := -(2 ^ 63)

def int64Max : Int := 2 ^ 63 - 1

/-- Twos-complement wrap-around of an integer into the int64 range,
the semantics of Go int64 addition and subtraction. -/
def wrap64 (x : Int) : Int := (x + 2 ^ 63) % 2 ^ 64 - 2 ^ 63

theorem wrap64_eq_self {x : Int} (hlo : int64Min ≤ x) (hhi : x ≤ int64Max) :
    wrap64 x = x := by
  unfold wrap64
  have h : (x + 2 ^ 63) % 2 ^ 64 = x + 2 ^ 63 :=
    Int.emod_eq_of_lt (by unfold int64Min at hlo; omega)
      (by unfold int64Max at hhi; omega)
  omega

/-! ### Shared models: Money (src/shared/models/models.go) -/

/-- Money: integer minor-unit amount plus currency code.  The amount is a Go
int64; arithmetic on it wraps. -/
structure Money where
  amount : Int
  currency : String
deriving DecidableEq, Repr

def NewMoney (amount : Int) (currency : String) : Money := ⟨amount, currency⟩

def Money.IsPositive (m : Money) : Bool := 0 < m.amount

/-- Money.Add: same-currency addition, Go int64 semantics. -/
def Money.Add (m o : Money) : Except String Money :=
  if m.currency ≠ o.currency then .error "currency mismatch"
  else .ok ⟨wrap64 (m.amount + o.amount), m.currency⟩

/-- Money.Subtract: same-currency subtraction, Go int64 semantics. -/
def Money.Subtract (m o : Money) : Except String Money :=
  if m.currency ≠ o.currency then .error "currency mismatch"
  else .ok ⟨wrap64 (m.amount - o.amount), m.currency⟩

/-! ### Wallet aggregate (wallet-service domain, src/unnamed/part_010) -/

inductive WalletStatus where
  | active
  | frozen
  | closed
deriving DecidableEq, Repr

/-- Payloads of the wallet domain events, one constructor per Go event data
struct, carrying the fields the Go code fills in. -/
inductive WalletEventData where
  | insufficientFunds (walletID userID paymentID : String)
      (requestedAmount availableBalance shortfall : Money)
  | debited (walletID userID paymentID transactionID : String)
      (amount balanceBefore balanceAfter : Money) (reference : String)
  | credited (walletID userID transactionID : String)
      (amount balanceBefore balanceAfter : Money) (reference : String)
  | frozen (walletID userID : String)
  | unfrozen (walletID userID : String)
deriving DecidableEq, Repr

/-- A wallet domain event: events.NewEvent fixes the aggregate id, the event
type string and the payload; metadata is added with WithMetadata. -/
structure WEvent where
  aggregateID : String
  eventType : String
  data : WalletEventData
  metadata : List (String × String) := []
deriving DecidableEq, Repr

structure WTransaction where
  id : String
  walletID : String
  txnType : String
  amount : Money
  balanceBefore : Money
  balanceAfter : Money
  reference : String
  paymentID : Option String
deriving DecidableEq, Repr

structure Wallet where
  id : String
  userID : String
  balance : Money
  status : WalletStatus
  createdAt : Nat
  updatedAt : Nat
  version : Nat
  events : List WEvent
deriving DecidableEq, Repr

def Wallet.recordEvent (w : Wallet) (e : WEvent) : Wallet :=
  { w with events := w.events ++ [e] }

/-- Wallet.Debit.  Returns the Go pair (transaction, error) as an Except plus
the wallet after the call: the Go method mutates the receiver, and on the
insufficient-funds path it appends an event even though it fails.
txnID and now stand for the generated transaction UUID and time.Now(). -/
def Wallet.Debit (w : Wallet) (amount : Money) (paymentID reference : String)
    (txnID : String) (now : Nat) : Except String WTransaction × Wallet :=
  if w.status ≠ .active then (.error "wallet is not active", w)
  else if amount.currency ≠ w.balance.currency then (.error "currency mismatch", w)
  else if ¬ amount.IsPositive then (.error "debit amount must be positive", w)
  else if w.balance.amount < amount.amount then
    (.error "insufficient funds",
      w.recordEvent ⟨w.id, "wallet.insufficient.funds",
        .insufficientFunds w.id w.userID paymentID amount w.balance
          (NewMoney (wrap64 (amount.amount - w.balance.amount)) amount.currency), []⟩)
  else
    let newBalance : Money := ⟨wrap64 (w.balance.amount - amount.amount), w.balance.currency⟩
    let txn : WTransaction :=
      ⟨txnID, w.id, "debit", amount, w.balance, newBalance, reference, some paymentID⟩
    let w' := { w with balance := newBalance, updatedAt := now, version := w.version + 1 }
    (.ok txn,
      w'.recordEvent ⟨w.id, "wallet.debited",
        .debited w.id w.userID paymentID txnID amount w.balance newBalance reference, []⟩)

/-- Wallet.Credit; paymentID is the optional pointer argument. -/
def Wallet.Credit (w : Wallet) (amount : Money) (reference : String)
    (paymentID : Option String) (txnID : String) (now : Nat) :
    Except String WTransaction × Wallet :=
  if w.status = .closed then (.error "wallet is closed", w)
  else if amount.currency ≠ w.balance.currency then (.error "currency mismatch", w)
  else if ¬ amount.IsPositive then (.error "credit amount must be positive", w)
  else
    let newBalance : Money := ⟨wrap64 (w.balance.amount + amount.amount), w.balance.currency⟩
    let txn : WTransaction :=
      ⟨txnID, w.id, "credit", amount, w.balance, newBalance, reference, paymentID⟩
    let w' := { w with balance := newBalance, updatedAt := now, version := w.version + 1 }
    (.ok txn,
      w'.recordEvent ⟨w.id, "wallet.credited",
        .credited w.id w.userID txnID amount w.balance newBalance reference,
        match paymentID with
        | some pid => [("payment_id", pid)]
        | none => []⟩)

def Wallet.Freeze (w : Wallet) (now : Nat) : Except String Unit × Wallet :=
  if w.status = .closed then (.error "cannot freeze a closed wallet", w)
  else
    let w' := { w with status := WalletStatus.frozen, updatedAt := now, version := w.version + 1 }
    (.ok (), w'.recordEvent ⟨w.id, "wallet.frozen", .frozen w.id w.userID, []⟩)

def Wallet.Unfreeze (w : Wallet) (now : Nat) : Except String Unit × Wallet :=
  if w.status ≠ .frozen then (.error "wallet is not frozen", w)
  else
    let w' := { w with status := WalletStatus.active, updatedAt := now, version := w.version + 1 }
    (.ok (), w'.recordEvent ⟨w.id, "wallet.unfrozen", .unfrozen w.id w.userID, []⟩)

def Wallet.CanDebit (w : Wallet) (amount : Money) : Bool :=
  w.status = .active && w.balance.currency = amount.currency
    && amount.amount ≤ w.balance.amount

/-! Sequences of wallet operations, for the balance invariant claim. -/

inductive WalletOp where
  | debit (amount : Money) (paymentID reference txnID : String) (now : Nat)
  | credit (amount : Money) (reference : String) (paymentID : Option String)
      (txnID : String) (now : Nat)
  | freeze (now : Nat)
  | unfreeze (now : Nat)
deriving DecidableEq, Repr

/-- The wallet state after one operation (the operation may also fail; the Go
methods leave the receiver they were called on, which this returns). -/
def Wallet.applyOp (w : Wallet) : WalletOp → Wallet
  | .debit a pid ref tid n => (w.Debit a pid ref tid n).2
  | .credit a ref pid tid n => (w.Credit a ref pid tid n).2
  | .freeze n => (w.Freeze n).2
  | .unfreeze n => (w.Unfreeze n).2

def Wallet.applyOps (w : Wallet) (ops : List WalletOp) : Wallet :=
  ops.foldl Wallet.applyOp w

/-- Every credit in the sequence, at the state where it runs, would keep the
balance within the int64 range: the no-overflow side condition. -/
def creditsNoOverflow : Wallet → List WalletOp → Bool
  | _, [] => true
  | w, op :: rest =>
    (match op with
     | .credit a _ _ _ _ => decide (w.balance.amount + a.amount ≤ int64Max)
     | _ => true) && creditsNoOverflow (w.applyOp op) rest

/-! ### Payment aggregate (src/payments-service/domain/payment.go) -/

inductive PaymentStatus where
  | initiated
  | processing
  | completed
  | failed
  | cancelled
deriving DecidableEq, Repr

/-- PaymentMethod: a method type string plus the optional embedded
wallet/card payloads (Go uses embedded nil-able pointers). -/
structure PaymentMethod where
  methodType : String
  walletID : Option String := none
  cardToken : Option String := none
deriving DecidableEq, Repr

/-- Payloads of the payment domain events, one constructor per Go event data
struct. -/
inductive PaymentEventData where
  | processing (paymentID userID : String)
  | completed (paymentID userID : String) (amount : Money)
      (gatewayTransactionID transactionID : String) (completedAt : Nat)
  | failed (paymentID userID : String) (amount : Money)
      (reason errorCode : String) (failedAt : Nat)
  | cancelled (paymentID userID : String) (cancelledAt : Nat)
  | operationCreated (operationID paymentID opType : String) (amount : Money)
      (provider : String)
  | walletDebitRequested (paymentID walletID userID : String) (amount : Money)
      (reference : String)
deriving DecidableEq, Repr

structure PEvent where
  aggregateID : String
  eventType : String
  data : PaymentEventData
deriving DecidableEq, Repr

structure Payment where
  id : String
  userID : String
  amount : Money
  paymentMethod : PaymentMethod
  description : String
  status : PaymentStatus
  createdAt : Nat
  updatedAt : Nat
  version : Nat
  events : List PEvent
deriving DecidableEq, Repr

def Payment.recordEvent (p : Payment) (e : PEvent) : Payment :=
  { p with events := p.events ++ [e] }

/-- Payment.Process: initiated to processing.  The Go methods mutate the
receiver and return an error; each is modelled as returning the optional
error together with the payment after the call (unchanged when the guard
fails).  now stands for time.Now(). -/
def Payment.Process (p : Payment) (now : Nat) : Option String × Payment :=
  if p.status ≠ .initiated then
    (some "payment can only be processed from initiated status", p)
  else
    let p' := { p with status := PaymentStatus.processing, updatedAt := now, version := p.version + 1 }
    (none, p'.recordEvent ⟨p.id, "payment.processing", .processing p.id p.userID⟩)

/-- Payment.Complete: processing to completed. -/
def Payment.Complete (p : Payment) (gatewayTransactionID transactionID : String)
    (now : Nat) : Option String × Payment :=
  if p.status ≠ .processing then
    (some "payment can only be completed from processing status", p)
  else
    let p' := { p with status := PaymentStatus.completed, updatedAt := now, version := p.version + 1 }
    (none, p'.recordEvent ⟨p.id, "payment.completed",
      .completed p.id p.userID p.amount gatewayTransactionID transactionID now⟩)

/-- Payment.Fail: forbidden only from completed. -/
def Payment.Fail (p : Payment) (reason errorCode : String) (now : Nat) :
    Option String × Payment :=
  if p.status = .completed then (some "cannot fail a completed payment", p)
  else
    let p' := { p with status := PaymentStatus.failed, updatedAt := now, version := p.version + 1 }
    (none, p'.recordEvent ⟨p.id, "payment.failed",
      .failed p.id p.userID p.amount reason errorCode now⟩)

/-- Payment.Cancel: forbidden only from completed. -/
def Payment.Cancel (p : Payment) (now : Nat) : Option String × Payment :=
  if p.status = .completed then (some "cannot cancel a completed payment", p)
  else
    let p' := { p with status := PaymentStatus.cancelled, updatedAt := now, version := p.version + 1 }
    (none, p'.recordEvent ⟨p.id, "payment.cancelled", .cancelled p.id p.userID now⟩)

/-! ### Payment operations (payments-service domain) -/

structure PaymentOperation where
  id : String
  paymentID : String
  opType : String
  status : String
  amount : Money
  provider : String
  events : List PEvent
deriving DecidableEq, Repr

/-- NewPaymentOperation: a pending operation holding its
payment.operation.created event; opID stands for the generated UUID. -/
def NewPaymentOperation (paymentID opType : String) (amount : Money)
    (provider : String) (opID : String) : PaymentOperation :=
  { id := opID, paymentID := paymentID, opType := opType, status := "pending",
    amount := amount, provider := provider,
    events := [⟨opID, "payment.operation.created",
      .operationCreated opID paymentID opType amount provider⟩] }

/-! ### ProcessPaymentMethod use case
(src/payments-service/application/process_payment_method.go).
The repository is modelled by passing the looked-up payment (none when the
repository finds nothing) and treating Save as always succeeding; the
publisher is modelled by returning the list of published events in order. -/

def ProcessPaymentMethodExecute (payment? : Option Payment) (opID : String)
    (now : Nat) : Except String (Payment × List PEvent) :=
  match payment? with
  | none => .error "payment not found"
  | some payment =>
    if payment.status ≠ .initiated then
      .error "payment must be in initiated status to process"
    else
      match payment.Process now with
      | (some e, _) => .error ("failed to mark payment as processing: " ++ e)
      | (none, p1) =>
        if p1.paymentMethod.methodType = "wallet" then
          let debitEvent : PEvent := ⟨p1.id, "wallet.debit.requested",
            .walletDebitRequested p1.id (p1.paymentMethod.walletID.getD "")
              p1.userID p1.amount ("Payment " ++ p1.id)⟩
          .ok ({ p1 with events := [] }, debitEvent :: p1.events)
        else if p1.paymentMethod.methodType = "credit_card" then
          let operation := NewPaymentOperation p1.id "debit" p1.amount
            p1.paymentMethod.methodType opID
          .ok ({ p1 with events := [] }, operation.events ++ p1.events)
        else
          match p1.Fail "unsupported_payment_method" "Payment method not supported" now with
          | (some e, _) => .error ("failed to mark payment as failed: " ++ e)
          | (none, p2) => .ok ({ p2 with events := [] }, p2.events)

/-! ### ProcessPaymentOperationResult use case (src/unnamed/part_003) -/

structure OpResultCommand where
  operationID : String
  paymentID : String
  opType : String
  status : String
  amount : Money
  providerTransactionID : String := ""
  externalTransactionID : String := ""
  errorCode : String := ""
  errorMessage : String := ""
deriving DecidableEq, Repr

def processDebitOperation (payment : Payment) (cmd : OpResultCommand)
    (now : Nat) : Option String × Payment :=
  if cmd.status = "completed" then
    payment.Complete cmd.providerTransactionID cmd.externalTransactionID now
  else if cmd.status = "failed" then
    let errorCode := if cmd.errorCode = "" then "payment_operation_failed" else cmd.errorCode
    let errorMessage :=
      if cmd.errorMessage = "" then "Payment operation failed" else cmd.errorMessage
    payment.Fail errorMessage errorCode now
  else if cmd.status = "cancelled" then
    payment.Cancel now
  else
    (none, payment)

def processRefundOperation (payment : Payment) (cmd : OpResultCommand) :
    Option String × Payment :=
  if cmd.status = "completed" then
    if payment.status ≠ .completed then (some "can only refund completed payments", payment)
    else (none, { payment with events := [] })
  else if cmd.status = "failed" then
    (some ("refund failed: " ++ cmd.errorMessage), payment)
  else
    (none, payment)

def processReversalOperation (payment : Payment) (cmd : OpResultCommand)
    (now : Nat) : Option String × Payment :=
  if cmd.status = "completed" then
    payment.Cancel now
  else if cmd.status = "failed" then
    (some ("reversal failed - payment may be in inconsistent state: " ++ cmd.errorMessage), payment)
  else
    (none, payment)

def validateOpResultCommand (cmd : OpResultCommand) : Except String Unit :=
  if cmd.operationID = "" then .error "operation ID is required"
  else if cmd.paymentID = "" then .error "payment ID is required"
  else if cmd.opType = "" then .error "operation type is required"
  else if cmd.status = "" then .error "operation status is required"
  else if cmd.amount.amount ≤ 0 then .error "amount must be positive"
  else .ok ()

/-- ProcessPaymentOperationResult.Execute: validates, routes by operation
type, saves (modelled as always succeeding), publishes the pending events of
the payment and clears them.  Returns the saved payment and the published
events. -/
def ProcessPaymentOperationResultExecute (payment? : Option Payment)
    (cmd : OpResultCommand) (now : Nat) : Except String (Payment × List PEvent) :=
  match validateOpResultCommand cmd with
  | .error e => .error ("invalid command: " ++ e)
  | .ok _ =>
    match payment? with
    | none => .error "payment not found"
    | some payment =>
      if cmd.opType = "debit" ∨ cmd.opType = "refund" ∨ cmd.opType = "reversal" then
        let routed : Option String × Payment :=
          if cmd.opType = "debit" then processDebitOperation payment cmd now
          else if cmd.opType = "refund" then processRefundOperation payment cmd
          else processReversalOperation payment cmd now
        match routed with
        | (some e, _) => .error ("failed to process operation: " ++ e)
        | (none, p1) => .ok ({ p1 with events := [] }, p1.events)
      else .error ("unsupported operation type: " ++ cmd.opType)

/-! ### Event envelope and topic matching (src/shared/events/menta_events.go)
Topics and metadata strings are modelled character by character as List Char
so that the dot-splitting and prefix/suffix/contains operations of the Go
code can be reasoned about. -/

abbrev GoStr := List Char

/-- strings.Contains: sub occurs somewhere in s. -/
def strContains (s sub : GoStr) : Bool :=
  match s with
  | [] => sub.isPrefixOf []
  | _ :: t => sub.isPrefixOf s || strContains t sub

/-- strings.TrimPrefix(s, "#"): drop one leading hash mark if present. -/
def trimHashMarkFront (s : GoStr) : GoStr :=
  match s with
  | '#' :: t => t
  | s => s

/-- strings.TrimSuffix(s, "#"): drop one trailing hash mark if present. -/
def trimHashMarkBack (s : GoStr) : GoStr :=
  if ['#'].isSuffixOf s then s.dropLast else s

/-- strings.Split(s, "."): Go semantics, Split("", ".") = [""]. -/
def splitOnDot : GoStr → List GoStr
  | [] => [[]]
  | c :: rest =>
    if c = '.' then [] :: splitOnDot rest
    else
      match splitOnDot rest with
      | [] => [[c]]
      | s :: ss => (c :: s) :: ss

/-- The segment-wise matcher matchPattern of menta_events.go. -/
def matchPattern : List GoStr → List GoStr → Bool
  | pp, tp =>
    if pp = [['#']] then true
    else if pp.length ≠ tp.length then false
    else
      match pp, tp with
      | [], _ => true
      | p :: pr, t :: tr => if p = ['*'] ∨ p = t then matchPattern pr tr else false
      | _ :: _, [] => false

/-- Topic.Matches of menta_events.go. -/
def TopicMatches (t pattern : GoStr) : Bool :=
  if ['#'].isPrefixOf pattern ∧ ['#'].isSuffixOf pattern then
    strContains t (trimHashMarkBack (trimHashMarkFront pattern))
  else if ['#'].isPrefixOf pattern then
    (trimHashMarkFront pattern).isSuffixOf t
  else if ['#'].isSuffixOf pattern then
    (trimHashMarkBack pattern).isPrefixOf t
  else
    matchPattern (splitOnDot pattern) (splitOnDot t)

/-- Event metadata: a string-keyed map, as an association list with the Go
lookup semantics (a missing key reads as the zero value ""). -/
abbrev GoMeta := List (GoStr × GoStr)

def metaGet (m : GoMeta) (k : GoStr) : GoStr := (m.lookup k).getD []

/-- Metadata.Matches: every required entry equals the stored value, a missing
key reading as the empty string. -/
def MetadataMatches (m required : GoMeta) : Bool :=
  required.all fun kv => metaGet m kv.1 == kv.2

/-- The event payload: Go stores either pre-serialized JSON ([]byte or
json.RawMessage) or a structured value; a structured value is identified here
by its JSON serialization, which is what MarshalPayload produces from it. -/
inductive Payload where
  | raw (bytes : GoStr)
  | structured (valueJSON : GoStr)
deriving DecidableEq, Repr

/-- MentaEvent.MarshalPayload: raw payloads pass through, structured values
are JSON-marshalled. -/
def marshalPayload : Payload → GoStr
  | .raw b => b
  | .structured v => v

structure MentaEvent where
  id : GoStr
  topic : GoStr
  metadata : GoMeta
  payload : Payload
  timestamp : Nat
deriving DecidableEq, Repr

/-- MentaEvent.Matches. -/
def MentaEventMatches (e : MentaEvent) (topic : GoStr) (metadata : GoMeta) : Bool :=
  TopicMatches e.topic topic && MetadataMatches e.metadata metadata

/-- The wire form EventDTO that MarshalJSON writes and UnmarshalJSON reads. -/
structure EventDTO where
  id : GoStr
  topic : GoStr
  metadata : GoMeta
  payload : GoStr
  timestamp : Nat
deriving DecidableEq, Repr

/-- MentaEvent.MarshalJSON: serialize the envelope, marshalling the payload. -/
def mentaMarshalJSON (e : MentaEvent) : EventDTO :=
  ⟨e.id, e.topic, e.metadata, marshalPayload e.payload, e.timestamp⟩

/-- MentaEvent.UnmarshalJSON: NewTopic rejects an empty topic; the payload
field is left as raw JSON. -/
def mentaUnmarshalJSON (dto : EventDTO) : Except String MentaEvent :=
  if dto.topic = [] then .error "invalid topic"
  else .ok ⟨dto.id, dto.topic, dto.metadata, .raw dto.payload, dto.timestamp⟩

/-! ### SNS publisher (src/shared/infrastructure/sns_event_publisher.go)
The broker is modelled as a function from a batch to an optional error; the
concurrent errgroup fan-out is serialized in batch order, so the error that
surfaces is the first failing batch.  Publish returns the surfaced error and
the list of batch calls made to the broker. -/

def maxBatchSize : Nat := 10

/-- splitToChunks.  Go loops forever when chunkSize = 0; the only call site
passes maxBatchSize = 10, and chunk size 0 is mapped to no chunks here. -/
def splitToChunks {α : Type} : List α → Nat → List (List α)
  | [], _ => []
  | _ :: _, 0 => []
  | a :: l, k + 1 => ((a :: l).take (k + 1)) :: splitToChunks ((a :: l).drop (k + 1)) (k + 1)
termination_by l _ => l.length
decreasing_by simp [List.length_drop]; omega

def publisherPublish {α ε : Type} (batchPublish : List α → Option ε)
    (evts : List α) : Option ε × List (List α) :=
  if evts.length = 0 then (none, [])
  else
    let chunks := splitToChunks evts maxBatchSize
    ((chunks.map batchPublish).findSome? id, chunks)

deriving instance DecidableEq for Except

/-! ### Specification-side definitions and concrete instances
TopicMatchesSpec renders the claim wording of the pattern language, to be
compared with the TopicMatches of the source; the concrete wallets,
payments, commands and events below are the inputs of the witness and
counterexample theorems. -/

/-- The claim-side (specification) reading of the pattern language: a pattern
enclosed in hash marks matches topics containing the enclosed substring, a
leading hash mark matches by suffix, a trailing one by prefix, and otherwise
the pattern matches iff it has the same number of dot-separated segments as
the topic with each segment equal or the single-segment wildcard. -/
def TopicMatchesSpec (t pattern : GoStr) : Prop :=
  if ['#'].isPrefixOf pattern ∧ ['#'].isSuffixOf pattern then
    trimHashMarkBack (trimHashMarkFront pattern) <:+: t
  else if ['#'].isPrefixOf pattern then
    trimHashMarkFront pattern <:+ t
  else if ['#'].isSuffixOf pattern then
    trimHashMarkBack pattern <+: t
  else
    List.Forall₂ (fun ps ts => ps = ['*'] ∨ ps = ts) (splitOnDot pattern) (splitOnDot t)

def c1Wallet : Wallet := ⟨"w1", "u1", ⟨100, "USD"⟩, .active, 0, 0, 1, []⟩

def c2Payment : Payment :=
  ⟨"p1", "u1", ⟨5000, "USD"⟩, ⟨"wallet", some "w1", none⟩, "d", .initiated, 0, 0, 1, []⟩

def c3Payment : Payment :=
  ⟨"p1", "u1", ⟨50, "USD"⟩, ⟨"wallet", some "w1", none⟩, "d", .processing, 0, 0, 2, []⟩

def c3Cmd : OpResultCommand :=
  ⟨"op1", "p1", "debit", "failed", ⟨50, "USD"⟩, "", "", "x", ""⟩

def c4Payment : Payment :=
  ⟨"p1", "u1", ⟨50, "USD"⟩, ⟨"debit", none, some "tok"⟩, "d", .initiated, 0, 0, 1, []⟩

def c5Payment : Payment :=
  ⟨"p1", "u1", ⟨50, "USD"⟩, ⟨"wallet", some "w1", none⟩, "d", .processing, 0, 0, 2, []⟩

def c5Cmd : OpResultCommand :=
  ⟨"op1", "p1", "reversal", "failed", ⟨50, "USD"⟩, "", "", "", "boom"⟩

def c6Wallet : Wallet := ⟨"w1", "u1", ⟨int64Max, "USD"⟩, .active, 0, 0, 1, []⟩

def c6WitnessWallet : Wallet := ⟨"w6", "u6", ⟨100, "USD"⟩, .active, 0, 0, 1, []⟩

def c6WitnessOps : List WalletOp :=
  [.credit ⟨500, "USD"⟩ "r" none "t1" 1, .debit ⟨200, "USD"⟩ "p" "r2" "t2" 2,
   .freeze 3, .unfreeze 4]

def c9StructuredEvent : MentaEvent :=
  ⟨"i1".toList, "payment.created".toList, [], .structured "1".toList, 3⟩

def c9RawEvent : MentaEvent :=
  ⟨"i1".toList, "payment.created".toList, [("k".toList, "v".toList)], .raw "1".toList, 3⟩

def c7Event : MentaEvent := ⟨"i".toList, "a".toList, [], .raw [], 0⟩

/-! ## Claim theorems -/

/-- C10: Wallet.Debit returns a transaction without error exactly when
CanDebit holds and the debited amount is positive.  CanDebit embeds as a
pure predicate on the wallet state (the Go method only reads fields), so it
modifies neither balance, status, version nor the pending-event buffer. -/
theorem c10_debit_ok_iff_canDebit (w : Wallet) (m : Money) (pid ref tid : String)
    (now : Nat) :
    (w.Debit m pid ref tid now).1.isOk = (w.CanDebit m && m.IsPositive) := by
  unfold Wallet.Debit Wallet.CanDebit Money.IsPositive
  split_ifs with h1 h2 h3 h4 <;>
    simp_all [Except.isOk, Except.toBool, Money.IsPositive] <;>
    try omega
  exact fun h => (h2 h.symm).elim

/-- C1: Wallet.Debit succeeds only when the wallet is active, currencies
agree and the amount is positive; with the guards passed, on a shortfall it
fails after recording only a wallet.insufficient.funds event carrying the
requested amount, the available balance and the shortfall (balance and
version untouched); otherwise it subtracts the amount from the balance,
returns a debit transaction capturing the balances before and after, bumps
the version, and records a wallet.debited event.  The range hypotheses state
the wallet invariant (balance not negative) and that both amounts are Go
int64 values. -/
theorem c1_wallet_debit (w : Wallet) (amount : Money) (pid ref tid : String)
    (now : Nat) (hbal0 : 0 ≤ w.balance.amount)
    (hbalHi : w.balance.amount ≤ int64Max) (hamtHi : amount.amount ≤ int64Max) :
    ((w.Debit amount pid ref tid now).1.isOk = true →
        w.status = .active ∧ amount.currency = w.balance.currency ∧
          0 < amount.amount) ∧
    (w.status = .active → amount.currency = w.balance.currency →
        0 < amount.amount → w.balance.amount < amount.amount →
        w.Debit amount pid ref tid now =
          (.error "insufficient funds",
            { w with events := w.events ++ [⟨w.id, "wallet.insufficient.funds",
                .insufficientFunds w.id w.userID pid amount w.balance
                  ⟨amount.amount - w.balance.amount, amount.currency⟩, []⟩] })) ∧
    (w.status = .active → amount.currency = w.balance.currency →
        0 < amount.amount → amount.amount ≤ w.balance.amount →
        w.Debit amount pid ref tid now =
          (.ok ⟨tid, w.id, "debit", amount, w.balance,
              ⟨w.balance.amount - amount.amount, w.balance.currency⟩, ref, some pid⟩,
            { w with
              balance := ⟨w.balance.amount - amount.amount, w.balance.currency⟩
              updatedAt := now
              version := w.version + 1
              events := w.events ++ [⟨w.id, "wallet.debited",
                .debited w.id w.userID pid tid amount w.balance
                  ⟨w.balance.amount - amount.amount, w.balance.currency⟩ ref, []⟩] })) := by
  refine ⟨?_, ?_, ?_⟩
  · intro h
    unfold Wallet.Debit at h
    split_ifs at h with h1 h2 h3 h4 <;>
      simp_all [Except.isOk, Except.toBool, Money.IsPositive]
  · intro h1 h2 h3 h4
    have hw : wrap64 (amount.amount - w.balance.amount) =
        amount.amount - w.balance.amount :=
      wrap64_eq_self (by unfold int64Min; omega) (by unfold int64Max at *; omega)
    simp [Wallet.Debit, Wallet.recordEvent, h1, h2, h3, h4, Money.IsPositive,
      NewMoney, hw]
  · intro h1 h2 h3 h4
    have hw : wrap64 (w.balance.amount - amount.amount) =
        w.balance.amount - amount.amount :=
      wrap64_eq_self (by unfold int64Min; omega) (by unfold int64Max at *; omega)
    simp [Wallet.Debit, Wallet.recordEvent, h1, h2, h3, Money.IsPositive,
      hw, not_lt.mpr h4]

/-- C1 witness: a concrete successful debit of 30 from a balance of 100. -/
theorem c1_wallet_debit_witness :
    c1Wallet.Debit ⟨30, "USD"⟩ "p1" "ref" "t1" 5 =
      (.ok ⟨"t1", c1Wallet.id, "debit", ⟨30, "USD"⟩, c1Wallet.balance,
          ⟨c1Wallet.balance.amount - 30, c1Wallet.balance.currency⟩, "ref", some "p1"⟩,
        { c1Wallet with
          balance := ⟨c1Wallet.balance.amount - 30, c1Wallet.balance.currency⟩
          updatedAt := 5
          version := c1Wallet.version + 1
          events := c1Wallet.events ++ [⟨c1Wallet.id, "wallet.debited",
            .debited c1Wallet.id c1Wallet.userID "p1" "t1" ⟨30, "USD"⟩
              c1Wallet.balance
              ⟨c1Wallet.balance.amount - 30, c1Wallet.balance.currency⟩ "ref", []⟩] }) :=
  (c1_wallet_debit c1Wallet ⟨30, "USD"⟩ "p1" "ref" "t1" 5 (by decide) (by decide)
      (by decide)).2.2 rfl rfl (by decide) (by decide)

/-- C2: the payment state machine: Process requires initiated, Complete
requires processing, Fail and Cancel are rejected exactly from completed;
every successful transition sets the target status, increments the version by
one, sets the update timestamp and appends exactly one domain event of the
corresponding type; a failed guard returns an error with the payment
unchanged. -/
theorem c2_payment_transitions (p : Payment) (gtx tx reason code : String)
    (now : Nat) :
    (p.status = .initiated → p.Process now =
        (none, { p with
          status := .processing
          updatedAt := now
          version := p.version + 1
          events := p.events ++ [⟨p.id, "payment.processing",
            .processing p.id p.userID⟩] })) ∧
    (p.status ≠ .initiated → p.Process now =
        (some "payment can only be processed from initiated status", p)) ∧
    (p.status = .processing → p.Complete gtx tx now =
        (none, { p with
          status := .completed
          updatedAt := now
          version := p.version + 1
          events := p.events ++ [⟨p.id, "payment.completed",
            .completed p.id p.userID p.amount gtx tx now⟩] })) ∧
    (p.status ≠ .processing → p.Complete gtx tx now =
        (some "payment can only be completed from processing status", p)) ∧
    (p.status ≠ .completed → p.Fail reason code now =
        (none, { p with
          status := .failed
          updatedAt := now
          version := p.version + 1
          events := p.events ++ [⟨p.id, "payment.failed",
            .failed p.id p.userID p.amount reason code now⟩] })) ∧
    (p.status = .completed → p.Fail reason code now =
        (some "cannot fail a completed payment", p)) ∧
    (p.status ≠ .completed → p.Cancel now =
        (none, { p with
          status := .cancelled
          updatedAt := now
          version := p.version + 1
          events := p.events ++ [⟨p.id, "payment.cancelled",
            .cancelled p.id p.userID now⟩] })) ∧
    (p.status = .completed → p.Cancel now =
        (some "cannot cancel a completed payment", p)) := by
  refine ⟨?_, ?_, ?_, ?_, ?_, ?_, ?_, ?_⟩ <;> intro h <;>
    simp [Payment.Process, Payment.Complete, Payment.Fail, Payment.Cancel,
      Payment.recordEvent, h]

/-- C2 witness: processing a concrete initiated payment. -/
theorem c2_payment_transitions_witness :
    c2Payment.Process 9 =
      (none, { c2Payment with
        status := .processing
        updatedAt := 9
        version := c2Payment.version + 1
        events := c2Payment.events ++ [⟨c2Payment.id, "payment.processing",
          .processing c2Payment.id c2Payment.userID⟩] }) :=
  (c2_payment_transitions c2Payment "g" "t" "r" "c" 9).1 rfl

/-- C3 counterexample: for a failed debit result whose command carries an
empty error message, the code does not invoke Fail with the command error
message: it substitutes "Payment operation failed". -/
theorem c3_counterexample :
    c3Cmd.errorMessage = "" ∧ c3Cmd.errorCode = "x" ∧
    processDebitOperation c3Payment c3Cmd 7 ≠
      c3Payment.Fail c3Cmd.errorMessage "x" 7 := by decide

/-- C3 (amended): ProcessPaymentOperationResult routes a debit-type result by
status: completed invokes Complete with the provider and external transaction
IDs; failed invokes Fail with the command error message (substituting
"Payment operation failed" when it is empty) and the command error code
(substituting "payment_operation_failed" when it is empty); cancelled invokes
Cancel; any other status leaves the payment unchanged. -/
theorem c3_debit_routing (payment : Payment) (cmd : OpResultCommand) (now : Nat) :
    (cmd.status = "completed" → processDebitOperation payment cmd now =
        payment.Complete cmd.providerTransactionID cmd.externalTransactionID now) ∧
    (cmd.status = "failed" → processDebitOperation payment cmd now =
        payment.Fail
          (if cmd.errorMessage = "" then "Payment operation failed" else cmd.errorMessage)
          (if cmd.errorCode = "" then "payment_operation_failed" else cmd.errorCode) now) ∧
    (cmd.status = "cancelled" → processDebitOperation payment cmd now =
        payment.Cancel now) ∧
    (cmd.status ≠ "completed" → cmd.status ≠ "failed" → cmd.status ≠ "cancelled" →
        processDebitOperation payment cmd now = (none, payment)) := by
  refine ⟨?_, ?_, ?_, ?_⟩
  · intro h
    simp [processDebitOperation, h]
  · intro h
    simp [processDebitOperation, h]
  · intro h
    simp [processDebitOperation, h]
  · intro h1 h2 h3
    simp [processDebitOperation, h1, h2, h3]

/-- C3 witness: the failed branch at the concrete command with empty message
and code "x". -/
theorem c3_debit_routing_witness :
    processDebitOperation c3Payment c3Cmd 7 =
      c3Payment.Fail "Payment operation failed" "x" 7 := by
  have h := (c3_debit_routing c3Payment c3Cmd 7).2.1 rfl
  simpa using h

/-- C4: evaluating ProcessPaymentMethod at an initiated payment whose method
type "debit" has no wallet or credit_card handling: the payment is
transitioned to failed, but the arguments of Fail(reason, errorCode) are
swapped at the call site, so the recorded event carries reason
"unsupported_payment_method" and error code "Payment method not supported". -/
theorem c4_unsupported_method_fail_swapped :
    ProcessPaymentMethodExecute (some c4Payment) "op1" 7 =
      .ok ({ c4Payment with status := .failed, updatedAt := 7, version := 3, events := [] },
        [⟨"p1", "payment.processing", .processing "p1" "u1"⟩,
         ⟨"p1", "payment.failed",
           .failed "p1" "u1" ⟨50, "USD"⟩ "unsupported_payment_method"
             "Payment method not supported" 7⟩]) := by decide

/-- C5 counterexample: a reversal-type result with status failed makes the
use case return an error; the payment is left unchanged with an empty
pending-event buffer, so no payment.inconsistent.state event (nor any other
event) is emitted. -/
theorem c5_counterexample :
    ProcessPaymentOperationResultExecute (some c5Payment) c5Cmd 7 =
      .error "failed to process operation: reversal failed - payment may be in inconsistent state: boom" ∧
    (processReversalOperation c5Payment c5Cmd 7).2 = c5Payment ∧
    c5Payment.events = [] := by decide

/-- C5 (amended): on a reversal-type operation result with status failed,
processReversalOperation returns an error naming a possible inconsistent
state and leaves the payment unchanged, and Execute surfaces that error
wrapped, publishing nothing. -/
theorem c5_reversal_failed (payment : Payment) (cmd : OpResultCommand) (now : Nat)
    (ht : cmd.opType = "reversal") (hs : cmd.status = "failed")
    (hv : validateOpResultCommand cmd = .ok ()) :
    processReversalOperation payment cmd now =
      (some ("reversal failed - payment may be in inconsistent state: " ++ cmd.errorMessage),
        payment) ∧
    ProcessPaymentOperationResultExecute (some payment) cmd now =
      .error ("failed to process operation: " ++
        ("reversal failed - payment may be in inconsistent state: " ++ cmd.errorMessage)) := by
  constructor
  · simp [processReversalOperation, hs]
  · simp [ProcessPaymentOperationResultExecute, hv, ht, hs, processReversalOperation]

/-- C5 witness: the amended statement at the concrete payment and command. -/
theorem c5_reversal_failed_witness :
    ProcessPaymentOperationResultExecute (some c5Payment) c5Cmd 7 =
      .error ("failed to process operation: " ++
        ("reversal failed - payment may be in inconsistent state: " ++ c5Cmd.errorMessage)) :=
  (c5_reversal_failed c5Payment c5Cmd 7 rfl rfl (by decide)).2

/-- One wallet operation preserves the balance range invariant, provided a
credit that runs does not overflow int64. -/
theorem applyOp_balance_inv (w : Wallet) (op : WalletOp)
    (h0 : 0 ≤ w.balance.amount) (h1 : w.balance.amount ≤ int64Max)
    (hov : ∀ a ref pid tid n, op = .credit a ref pid tid n →
      w.balance.amount + a.amount ≤ int64Max) :
    0 ≤ (w.applyOp op).balance.amount ∧ (w.applyOp op).balance.amount ≤ int64Max := by
  cases op with
  | debit a pid ref tid n =>
    simp only [Wallet.applyOp, Wallet.Debit]
    split_ifs with g1 g2 g3 g4
    · exact ⟨h0, h1⟩
    · exact ⟨h0, h1⟩
    · simpa [Wallet.recordEvent] using ⟨h0, h1⟩
    · simp only [Money.IsPositive, decide_eq_true_eq] at g3
      have hle : a.amount ≤ w.balance.amount := not_lt.mp g4
      have hw : wrap64 (w.balance.amount - a.amount) =
          w.balance.amount - a.amount :=
        wrap64_eq_self (by unfold int64Min; omega) (by unfold int64Max at *; omega)
      simp only [Wallet.recordEvent]
      constructor <;> simp [hw] <;> omega
    · exact ⟨h0, h1⟩
  | credit a ref pid tid n =>
    have hov' := hov a ref pid tid n rfl
    simp only [Wallet.applyOp, Wallet.Credit]
    split_ifs with g1 g2 g3
    · exact ⟨h0, h1⟩
    · exact ⟨h0, h1⟩
    · simp only [Money.IsPositive, decide_eq_true_eq] at g3
      have hw : wrap64 (w.balance.amount + a.amount) =
          w.balance.amount + a.amount :=
        wrap64_eq_self (by unfold int64Min; omega) (by unfold int64Max at *; omega)
      simp only [Wallet.recordEvent]
      constructor <;> simp [hw] <;> omega
    · exact ⟨h0, h1⟩
  | freeze n =>
    simp only [Wallet.applyOp, Wallet.Freeze]
    split_ifs <;> simpa [Wallet.recordEvent] using ⟨h0, h1⟩
  | unfreeze n =>
    simp only [Wallet.applyOp, Wallet.Unfreeze]
    split_ifs <;> simpa [Wallet.recordEvent] using ⟨h0, h1⟩

/-- C6 counterexample: a wallet with the maximal int64 balance is
non-negative, yet a single credit of 1 wraps the balance to a negative
value. -/
theorem c6_counterexample :
    0 ≤ c6Wallet.balance.amount ∧
    (c6Wallet.applyOps [.credit ⟨1, "USD"⟩ "r" none "t1" 1]).balance.amount < 0 := by
  decide

/-- C6 (amended): starting from a non-negative int64 balance, any sequence of
Debit, Credit, Freeze and Unfreeze operations keeps the balance non-negative,
provided every credit that runs keeps the balance within the int64 range (no
overflow). -/
theorem c6_balance_nonneg (w : Wallet) (ops : List WalletOp)
    (h0 : 0 ≤ w.balance.amount) (h1 : w.balance.amount ≤ int64Max)
    (hov : creditsNoOverflow w ops = true) :
    0 ≤ (w.applyOps ops).balance.amount := by
  induction ops generalizing w with
  | nil => simpa [Wallet.applyOps] using h0
  | cons op rest ih =>
    simp only [creditsNoOverflow, Bool.and_eq_true] at hov
    obtain ⟨hhead, htail⟩ := hov
    have hstep := applyOp_balance_inv w op h0 h1 (by
      intro a ref pid tid n heq
      subst heq
      simpa using hhead)
    have hfold : Wallet.applyOps w (op :: rest) = Wallet.applyOps (w.applyOp op) rest := by
      simp [Wallet.applyOps]
    rw [hfold]
    exact ih (w.applyOp op) hstep.1 hstep.2 htail

/-- C6 witness: a concrete sequence of credit, debit, freeze, unfreeze. -/
theorem c6_balance_nonneg_witness :
    0 ≤ (c6WitnessWallet.applyOps c6WitnessOps).balance.amount :=
  c6_balance_nonneg c6WitnessWallet c6WitnessOps (by decide) (by decide) (by decide)

theorem splitToChunks_join {α : Type} (k : Nat) :
    ∀ (n : Nat) (l : List α), l.length ≤ n → (splitToChunks l (k + 1)).flatten = l := by
  intro n
  induction n with
  | zero =>
    intro l hl
    have hnil : l = [] := List.eq_nil_of_length_eq_zero (Nat.le_zero.mp hl)
    subst hnil
    simp [splitToChunks]
  | succ n ih =>
    intro l hl
    match l with
    | [] => simp [splitToChunks]
    | a :: l' =>
      have hdrop : ((a :: l').drop (k + 1)).length ≤ n := by
        simp only [List.length_drop, List.length_cons]
        simp only [List.length_cons] at hl
        omega
      simp only [splitToChunks, List.flatten_cons, ih _ hdrop]
      exact List.take_append_drop _ _

theorem splitToChunks_size {α : Type} (k : Nat) :
    ∀ (n : Nat) (l : List α), l.length ≤ n →
      ∀ c ∈ splitToChunks l (k + 1), c.length ≤ k + 1 := by
  intro n
  induction n with
  | zero =>
    intro l hl
    have hnil : l = [] := List.eq_nil_of_length_eq_zero (Nat.le_zero.mp hl)
    subst hnil
    simp [splitToChunks]
  | succ n ih =>
    intro l hl
    match l with
    | [] => simp [splitToChunks]
    | a :: l' =>
      have hdrop : ((a :: l').drop (k + 1)).length ≤ n := by
        simp only [List.length_drop, List.length_cons]
        simp only [List.length_cons] at hl
        omega
      intro c hc
      simp only [splitToChunks, List.mem_cons] at hc
      rcases hc with hc | hc
      · subst hc
        simp
      · exact ih _ hdrop c hc

theorem findSome_id_eq_head_filterMap {ε : Type} (l : List (Option ε)) :
    l.findSome? id = (l.filterMap id).head? := by
  induction l with
  | nil => simp
  | cons a as ih =>
    cases a with
    | some e => simp [List.findSome?_cons]
    | none =>
      rw [List.findSome?_cons]
      simp only [id_eq, List.filterMap_cons_none, Option.some.injEq] at ih ⊢
      exact ih

/-- C8: Publish accepts any number of events; with zero events it succeeds
without any broker call; otherwise the batches sent to the broker are
consecutive chunks of at most maxBatchSize = 10 events whose concatenation is
the input, and the error surfaced is the first failing batch result (the
concurrent errgroup fan-out is serialized in batch order by the model). -/
theorem c8_publish_batches {α ε : Type} (f : List α → Option ε) (evts : List α) :
    publisherPublish f ([] : List α) = (none, []) ∧
    ((publisherPublish f evts).2).flatten = evts ∧
    (∀ c ∈ (publisherPublish f evts).2, c.length ≤ maxBatchSize) ∧
    (publisherPublish f evts).1 =
      (((publisherPublish f evts).2.map f).filterMap id).head? := by
  have hmb : maxBatchSize = 9 + 1 := rfl
  refine ⟨by simp [publisherPublish], ?_, ?_, ?_⟩ <;>
    unfold publisherPublish <;>
    by_cases h : evts.length = 0
  · simp [h, List.eq_nil_of_length_eq_zero h]
  · simp only [h, if_false, hmb]
    exact splitToChunks_join 9 evts.length evts le_rfl
  · simp [h]
  · simp only [h, if_false, hmb]
    exact splitToChunks_size 9 evts.length evts le_rfl
  · simp [h]
  · simp only [h, if_false]
    exact findSome_id_eq_head_filterMap _

/-- C9 counterexample: an event holding a structured payload does not survive
the round trip as an equal value: deserialization leaves the payload as raw
JSON, the serialized form of the original structured value. -/
theorem c9_counterexample :
    mentaUnmarshalJSON (mentaMarshalJSON c9StructuredEvent) ≠ .ok c9StructuredEvent := by
  decide

/-- C9 (amended): for every event with a non-empty topic, deserializing the
serialized form yields the event with id, topic, metadata and timestamp
intact and the payload replaced by the raw JSON serialization of the original
payload; parse(serialize(e)) = e therefore holds exactly when the payload was
already raw JSON. -/
theorem c9_round_trip (e : MentaEvent) (h : e.topic ≠ []) :
    mentaUnmarshalJSON (mentaMarshalJSON e) =
      .ok { e with payload := .raw (marshalPayload e.payload) } := by
  simp [mentaUnmarshalJSON, mentaMarshalJSON, h]

/-- C9 witness: the amended statement at a concrete raw-payload event; here
the round trip returns the event itself. -/
theorem c9_round_trip_witness :
    mentaUnmarshalJSON (mentaMarshalJSON c9RawEvent) =
      .ok { c9RawEvent with payload := .raw (marshalPayload c9RawEvent.payload) } :=
  c9_round_trip c9RawEvent (by decide)

theorem strContains_iff (s sub : GoStr) : strContains s sub = true ↔ sub <:+: s := by
  induction s with
  | nil =>
    simp [strContains, List.isPrefixOf_iff_prefix, List.infix_nil, List.prefix_nil]
  | cons c t ih =>
    simp [strContains, List.isPrefixOf_iff_prefix, ih, List.infix_cons_iff]

theorem splitOnDot_ne_nil (l : GoStr) : splitOnDot l ≠ [] := by
  cases l with
  | nil => simp [splitOnDot]
  | cons c rest =>
    simp only [splitOnDot]
    by_cases h : c = '.'
    · simp [h]
    · simp only [h, if_neg, not_false_iff]
      cases hS : splitOnDot rest <;> simp

theorem splitOnDot_singleton : ∀ {l s : GoStr}, splitOnDot l = [s] → l = s := by
  intro l
  induction l with
  | nil =>
    intro s h
    simp only [splitOnDot, List.cons.injEq] at h
    exact h.1
  | cons c rest ih =>
    intro s h
    by_cases hc : c = '.'
    · simp only [splitOnDot, hc, if_pos, List.cons.injEq] at h
      exact absurd h.2 (splitOnDot_ne_nil rest)
    · simp only [splitOnDot, hc, if_neg, not_false_iff] at h
      cases hS : splitOnDot rest with
      | nil => exact absurd hS (splitOnDot_ne_nil rest)
      | cons s0 ss =>
        rw [hS] at h
        cases ss with
        | nil =>
          simp only [List.cons.injEq] at h
          have hrest := ih hS
          subst hrest
          exact h.1
        | cons s1 ss2 => simp at h

theorem splitOnDot_getLast_suffix (l : GoStr) :
    ∀ s, (splitOnDot l).getLast? = some s → s <:+ l := by
  induction l with
  | nil =>
    intro s h
    simp only [splitOnDot, List.getLast?_singleton, Option.some.injEq] at h
    subst h
    exact List.nil_suffix
  | cons c rest ih =>
    intro s h
    by_cases hc : c = '.'
    · simp only [splitOnDot, hc, if_pos] at h
      cases hS : splitOnDot rest with
      | nil => exact absurd hS (splitOnDot_ne_nil rest)
      | cons s0 ss =>
        rw [hS, List.getLast?_cons_cons] at h
        have hsuf := ih s (by rw [hS]; exact h)
        exact hsuf.trans (List.suffix_cons c rest)
    · simp only [splitOnDot, hc, if_neg, not_false_iff] at h
      cases hS : splitOnDot rest with
      | nil => exact absurd hS (splitOnDot_ne_nil rest)
      | cons s0 ss =>
        rw [hS] at h
        cases ss with
        | nil =>
          simp only [List.getLast?_singleton, Option.some.injEq] at h
          have hrest := splitOnDot_singleton hS
          subst hrest
          subst h
          exact List.suffix_refl _
        | cons s1 ss2 =>
          rw [List.getLast?_cons_cons] at h
          have hsuf := ih s (by rw [hS, List.getLast?_cons_cons]; exact h)
          exact hsuf.trans (List.suffix_cons c rest)

theorem matchPattern_iff :
    ∀ (pp tp : List GoStr), pp.getLast? ≠ some ['#'] →
      (matchPattern pp tp = true ↔
        List.Forall₂ (fun ps ts => ps = ['*'] ∨ ps = ts) pp tp) := by
  intro pp
  induction pp with
  | nil =>
    intro tp _
    cases tp with
    | nil => simp [matchPattern]
    | cons t tr => simp [matchPattern]
  | cons p pr ih =>
    intro tp h
    have hne : p :: pr ≠ [['#']] := by
      intro hcontra
      injection hcontra with h1 h2
      subst h1
      subst h2
      simp at h
    cases tp with
    | nil =>
      have heq : matchPattern (p :: pr) [] =
          (if p :: pr = [['#']] then true
           else if (p :: pr).length ≠ ([] : List GoStr).length then false
           else false) := rfl
      rw [heq, if_neg hne]
      simp
    | cons t tr =>
      have htail : pr.getLast? ≠ some ['#'] := by
        cases pr with
        | nil => simp
        | cons q qr =>
          rw [List.getLast?_cons_cons] at h
          exact h
      have heq : matchPattern (p :: pr) (t :: tr) =
          (if p :: pr = [['#']] then true
           else if (p :: pr).length ≠ (t :: tr).length then false
           else if p = ['*'] ∨ p = t then matchPattern pr tr else false) := rfl
      rw [heq, if_neg hne]
      by_cases hlen : pr.length = tr.length
      · rw [if_neg (by simp [hlen] : ¬(p :: pr).length ≠ (t :: tr).length)]
        by_cases hhead : p = ['*'] ∨ p = t
        · rw [if_pos hhead, ih tr htail]
          simp [List.forall₂_cons, hhead]
        · rw [if_neg hhead]
          simp [List.forall₂_cons, hhead]
      · rw [if_pos (by simp [hlen] : (p :: pr).length ≠ (t :: tr).length)]
        constructor
        · intro hf
          simp at hf
        · intro hf
          exact absurd (by simpa using hf.length_eq) hlen

theorem topicMatches_iff (t p : GoStr) :
    TopicMatches t p = true ↔ TopicMatchesSpec t p := by
  unfold TopicMatches TopicMatchesSpec
  split_ifs with h1 h2 h3
  · exact strContains_iff t _
  · exact List.isSuffixOf_iff_suffix
  · exact List.isPrefixOf_iff_prefix
  · have hlast : (splitOnDot p).getLast? ≠ some ['#'] := by
      intro hcontra
      have hsuf : ['#'] <:+ p := splitOnDot_getLast_suffix p _ hcontra
      exact h3 (List.isSuffixOf_iff_suffix.mpr hsuf)
    exact matchPattern_iff _ _ hlast

/-- C7 counterexample: with a required metadata entry carrying the empty
string as value and an event lacking that key, Matches accepts (the Go map
read of a missing key returns the zero value), although the event metadata is
not a superset of the required entries. -/
theorem c7_counterexample :
    MentaEventMatches c7Event "a".toList [("k".toList, [])] = true ∧
    ("k".toList, ([] : GoStr)) ∉ c7Event.metadata := by decide

/-- C7 (amended): an event matches a subscription iff its topic matches the
pattern in the claimed pattern language and every required metadata entry
equals the event metadata value for that key, where an absent key reads as
the empty string (so the metadata-superset wording holds up to required
entries with empty values). -/
theorem c7_event_matching (e : MentaEvent) (pattern : GoStr) (required : GoMeta) :
    MentaEventMatches e pattern required = true ↔
      TopicMatchesSpec e.topic pattern ∧
        ∀ kv ∈ required, metaGet e.metadata kv.1 = kv.2 := by
  unfold MentaEventMatches MetadataMatches
  rw [Bool.and_eq_true, topicMatches_iff]
  simp [List.all_eq_true, beq_iff_eq]


/-- C10 witness: the equivalence evaluated at a concrete wallet and amount. -/
theorem c10_debit_ok_iff_canDebit_witness :
    (c1Wallet.Debit ⟨30, "USD"⟩ "p" "r" "t" 1).1.isOk =
      (c1Wallet.CanDebit ⟨30, "USD"⟩ && Money.IsPositive ⟨30, "USD"⟩) :=
  c10_debit_ok_iff_canDebit c1Wallet ⟨30, "USD"⟩ "p" "r" "t" 1

/-- C8 witness: the batching property evaluated on a concrete input. -/
theorem c8_publish_batches_witness :
    (publisherPublish (fun _ : List Nat => (none : Option Nat)) [1, 2, 3]).2.flatten
      = [1, 2, 3] :=
  (c8_publish_batches (fun _ : List Nat => (none : Option Nat)) [1, 2, 3]).2.1

/-- C7 witness: the characterization evaluated at a concrete event and
subscription. -/
theorem c7_event_matching_witness :
    MentaEventMatches c7Event "a".toList [] = true ↔
      TopicMatchesSpec c7Event.topic "a".toList ∧
        ∀ kv ∈ ([] : GoMeta), metaGet c7Event.metadata kv.1 = kv.2 :=
  c7_event_matching c7Event "a".toList []

end Draftea
